import Mathlib

/-!
Shallow embedding of the SW102 screen layer (screen.c / screen.h): the Field
data model, the editable value engine, the scrollable navigation stack, the
button dispatch and the dirty-tracking render loop.

Modelling conventions:
- C structs become Lean structures; the C union payload of Field is flattened
  into one structure (only the fields of the active variant are ever read,
  mirroring the C discipline).
- Field objects live in a heap indexed by natural numbers (Field pointers
  become indices), because fields are shared between layouts and mutated in
  place.  Editable target cells (externally owned storage) live in a second
  heap of raw natural-number contents.
- Machine integers are modelled as Nat/Int with explicit reductions mod 2^w
  where the C code truncates or compares with mixed signedness.
- A C assert is modelled by returning none from an Option-valued function.
- Pixel drawing primitives (fill, line, string, flush) are external
  collaborators and have no observable effect on this state; calls to them
  are dropped.
-/

namespace SW102

/-- FieldVariant enum from screen.h. -/
inductive FieldVariant where
  | FieldDrawText
  | FieldFill
  | FieldMesh
  | FieldScrollable
  | FieldEditable
  | FieldEnd
deriving DecidableEq, Repr

/-- EditableType enum from screen.h. -/
inductive EditableType where
  | EditUInt
  | EditEnum
deriving DecidableEq, Repr

/-- Layout modifier referenced by screen.c (layout->modifier == ModNoLabel).
The declaring header revision is absent from the sources; modelled from the
spec: a FieldLayout carries a modifier, e.g. suppress label. -/
inductive Modifier where
  | ModNone
  | ModNoLabel
deriving DecidableEq, Repr

/-- ColorOp enum from screen.h. -/
inductive ColorOp where
  | ColorNormal
  | ColorInvert
  | ColorSelected
deriving DecidableEq, Repr

/-- MAX_FIELD_LEN from screen.h: size of the drawText message buffer. -/
def MAX_FIELD_LEN : Nat := 16

/-- The Field struct of screen.h, with the union payload flattened.
The flags blink and is_selected and the editable members size, read_only and
hide_fraction are used by screen.c but their declaring header revision is
absent from the sources; they are modelled from the spec (dirty/blink/selected
flags; for UInt byte width, read-only flag, hide-fraction flag).
Pointers become heap indices: entries holds the indices of the child Field
records of a scrollable (the FieldEnd sentinel is one of them), target holds
the index of the externally owned storage cell of an editable, and options
holds the enum option strings (the terminating NULL entry of the C array is
represented by the end of the list). -/
structure Field where
  variant : FieldVariant := .FieldDrawText
  dirty : Bool := false
  blink : Bool := false
  is_selected : Bool := false
  -- drawText payload
  msg : String := ""
  -- scrollable payload
  entries : List Nat := []
  label : String := ""
  first : Nat := 0      -- uint8_t in screen.h
  selected : Nat := 0   -- uint8_t in screen.h
  -- editable payload
  typ : EditableType := .EditUInt
  target : Nat := 0
  read_only : Bool := false
  -- editable.number payload (all uint32_t except size, div_digits: uint8_t)
  size : Nat := 1
  units : String := ""
  div_digits : Nat := 0
  hide_fraction : Bool := false
  max_value : Nat := 0
  min_value : Nat := 0
  inc_step : Nat := 0
  -- editable.editEnum payload
  options : List String := []
deriving Repr

/-- External storage cells that editable fields point at (raw contents of the
pointed-to memory, as an unsigned value of the editable's byte width). -/
def Cells : Type := Nat → Nat

/-- Reinterpret the low `bits` bits of an unsigned value as a two's-complement
signed integer (the effect of reading through a signed pointer in C). -/
def toSigned (bits : Nat) (raw : Nat) : Int :=
  if raw < 2 ^ (bits - 1) then (raw : Int) else (raw : Int) - 2 ^ bits

/-- getEditableNumber from screen.c: read the editable's target cell.
size 1 reads through a uint8_t pointer (unsigned), size 2 through an int16_t
pointer (signed!), size 4 through an int32_t pointer (signed); any other size
hits assert(0), modelled by none.  A cell of byte width s holds a value below
2^(8*s); the reductions mod 2^(8*s) make the reader total on arbitrary cell
contents. -/
def getEditableNumber (f : Field) (cells : Cells) : Option Int :=
  match f.size with
  | 1 => some ((cells f.target % 2 ^ 8 : Nat) : Int)
  | 2 => some (toSigned 16 (cells f.target % 2 ^ 16))
  | 4 => some (toSigned 32 (cells f.target % 2 ^ 32))
  | _ => none

/-- setEditableNumber from screen.c: write v through a uint8_t / uint16_t /
uint32_t pointer according to the byte width, i.e. store the unsigned
truncation of v to 8*size bits; any other size hits assert(0). -/
def setEditableNumber (f : Field) (cells : Cells) (v : Int) : Option Cells :=
  match f.size with
  | 1 => some (fun j => if j = f.target then (v % 2 ^ 8).toNat else cells j)
  | 2 => some (fun j => if j = f.target then (v % 2 ^ 16).toNat else cells j)
  | 4 => some (fun j => if j = f.target then (v % 2 ^ 32).toNat else cells j)
  | _ => none

/-- countEnumOptions from screen.c: walk the option strings until the NULL
sentinel, which the list representation renders as the list end. -/
def countEnumOptions (f : Field) : Nat :=
  f.options.length

/-- changeEditable from screen.c, applied to the current active editable f
(the C function reads it from the curActiveEditable global and asserts it is
non-null).  v is a C int; the comparisons of the UInt branch are against
uint32_t bounds, so C's usual arithmetic conversions convert v to unsigned
(v mod 2^32) before comparing - this is modelled explicitly by vu.  The
assignments v = max_value / v = min_value convert uint32_t back to int
(toSigned 32).  The Enum branch compares against int values, so it stays
signed. -/
def changeEditable (f : Field) (cells : Cells) (increment : Bool) : Option Cells :=
  match getEditableNumber f cells with
  | none => none
  | some v0 =>
    match f.typ with
    | .EditUInt =>
      let step : Int := if f.inc_step = 0 then 1 else toSigned 32 f.inc_step
      let v : Int := v0 + step * (if increment then 1 else -1)
      let vu : Nat := (v % 2 ^ 32).toNat
      let v : Int :=
        if vu < f.min_value then toSigned 32 f.max_value
        else if f.max_value < vu then toSigned 32 f.min_value
        else v
      setEditableNumber f cells v
    | .EditEnum =>
      let numOpts : Int := countEnumOptions f
      let v : Int := v0 + (if increment then 1 else -1)
      let v : Int :=
        if v < 0 then numOpts - 1
        else if numOpts ≤ v then 0
        else v
      setEditableNumber f cells v

/-- MAX_SCROLLABLE_DEPTH from screen.c: how deep scrollables can nest in the
navigation stack. -/
def MAX_SCROLLABLE_DEPTH : Nat := 3

/-- MAX_SCROLLABLE_ROWS from screen.c: max rows shown per screen, header
included. -/
def MAX_SCROLLABLE_ROWS : Nat := 4

/-- The process-wide mutable UI state touched by the button dispatch path of
screen.c.  The scrollableStack array plus scrollableStackPtr become a list
whose head is scrollableStack[0] (the root) and whose last element is the top
of the stack; its length is the stack pointer.  The current screen's onPress
function pointer is passed to screenOnPress as a parameter instead of being
stored (a stored handler over this state type would be circular). -/
structure UIState where
  fields : Nat → Field
  cells : Cells
  stack : List Nat
  curActiveEditable : Option Nat
  forceScrollableRelayout : Bool

/-- Update the Field record at heap index i in place. -/
def updateField (st : UIState) (i : Nat) (g : Field → Field) : UIState :=
  { st with fields := fun j => if j = i then g (st.fields j) else st.fields j }

/-- getActiveScrollable from screen.c: scrollableStack[scrollableStackPtr - 1]
when the stack is non-empty, else NULL. -/
def getActiveScrollable (st : UIState) : Option Nat :=
  st.stack.getLast?

/-- enterScrollable from screen.c: assert the stack is not full, push the
Field, set its blink flag (children may need animation), and mark the root
scrollable (scrollableStack[0]) dirty - only the root is checked by the main
screen renderer. -/
def enterScrollable (st : UIState) (f : Nat) : Option UIState :=
  if st.stack.length < MAX_SCROLLABLE_DEPTH then
    let st1 := { st with stack := st.stack ++ [f] }
    let st2 := updateField st1 f (fun fl => { fl with blink := true })
    let st3 := updateField st2 (st2.stack.headD 0) (fun fl => { fl with dirty := true })
    some { st3 with forceScrollableRelayout := true }
  else
    none

/-- exitScrollable from screen.c: assert the stack is non-empty, pop it; if a
parent scrollable remains, mark it dirty, force a relayout and return true; if
the stack became empty return false (the caller then reports the press as not
handled at this layer). -/
def exitScrollable (st : UIState) : Option (UIState × Bool) :=
  match st.stack with
  | [] => none
  | _ :: _ =>
    let st1 := { st with stack := st.stack.dropLast }
    match st1.stack.getLast? with
    | some f =>
      some ({ updateField st1 f (fun fl => { fl with dirty := true }) with
                forceScrollableRelayout := true }, true)
    | none => some (st1, false)

/-- forceScrollableRender from screen.c: assert a scrollable is active, mark
the root scrollable dirty (the gui thread only looks at the root) and force a
relayout. -/
def forceScrollableRender (st : UIState) : Option UIState :=
  match getActiveScrollable st with
  | none => none
  | some _ =>
    some { updateField st (st.stack.headD 0) (fun fl => { fl with dirty := true }) with
             forceScrollableRelayout := true }

/-- countEntries from screen.c: walk a scrollable's entries until the FieldEnd
sentinel record (a missing sentinel would make the C loop run off the array;
the walk then stops at the end of the modelled list). -/
def countEntriesList (fields : Nat → Field) : List Nat → Nat
  | [] => 0
  | e :: rest =>
    if (fields e).variant = .FieldEnd then 0 else 1 + countEntriesList fields rest

/-- countEntries applied to the scrollable at heap index sid. -/
def countEntries (st : UIState) (sid : Nat) : Nat :=
  countEntriesList st.fields (st.fields sid).entries

/-- The decoded button events screen.c inspects: UP_CLICK, DOWN_CLICK,
M_CLICK, ONOFF_CLICK bits of buttons_events_t. -/
structure Events where
  up : Bool := false
  down : Bool := false
  m : Bool := false
  onoff : Bool := false
deriving DecidableEq, Repr

/-- The UP_CLICK branch of onPressScrollable: decrement selected (stops at 0),
then pull first up to selected if selected scrolled above the window.  Both
members are uint8_t; the decrement is guarded so no truncation occurs here. -/
def scrollUp (st : UIState) (sid : Nat) : UIState :=
  let st1 := updateField st sid (fun s =>
    if 1 ≤ s.selected then { s with selected := s.selected - 1 } else s)
  updateField st1 sid (fun s =>
    if s.selected < s.first then { s with first := s.selected } else s)

/-- The DOWN_CLICK branch of onPressScrollable: increment selected when below
numEntries - 1 (the uint8_t store truncates mod 256), then if selected moved
past the last visible data row (first + numDataRows - 1, as C ints), advance
first so selected is the last visible row (again stored into a uint8_t). -/
def scrollDown (st : UIState) (sid : Nat) : UIState :=
  let numEntries : Int := countEntries st sid
  let st1 := updateField st sid (fun s =>
    if (s.selected : Int) < numEntries - 1 then
      { s with selected := (s.selected + 1) % 2 ^ 8 }
    else s)
  let numDataRows : Int := MAX_SCROLLABLE_ROWS - 1
  updateField st1 sid (fun s =>
    let lastVisibleRow : Int := (s.first : Int) + numDataRows - 1
    if lastVisibleRow < (s.selected : Int) then
      { s with first := (((s.selected : Int) - numDataRows + 1) % 2 ^ 8).toNat }
    else s)

/-- The M_CLICK branch of onPressScrollable: commit to the selected row.  An
Editable row that is not read-only becomes the active editable and is marked
dirty; a Scrollable row is entered (pushed).  The C code indexes
entries[selected] unconditionally; an index beyond the modelled entry list is
an out-of-bounds read and is modelled as failure. -/
def scrollCommit (st : UIState) (sid : Nat) (handled : Bool) :
    Option (UIState × Bool) :=
  match (st.fields sid).entries.get? (st.fields sid).selected with
  | none => none
  | some cid =>
    match (st.fields cid).variant with
    | .FieldEditable =>
      if (st.fields cid).read_only then some (st, handled)
      else
        let st1 := { st with curActiveEditable := some cid }
        let st2 := updateField st1 cid (fun fl => { fl with dirty := true })
        match forceScrollableRender st2 with
        | none => none
        | some st3 => some (st3, true)
    | .FieldScrollable =>
      (enterScrollable st cid).map (fun st1 => (st1, true))
    | _ => some (st, handled)

/-- onPressScrollable from screen.c.  The active scrollable is read once; the
UP_CLICK, DOWN_CLICK, M_CLICK and ONOFF_CLICK branches then run in that order
on the evolving state.  Note that the ONOFF_CLICK branch overwrites handled
with the return value of exitScrollable. -/
def onPressScrollable (st : UIState) (ev : Events) : Option (UIState × Bool) :=
  match getActiveScrollable st with
  | none => some (st, false)
  | some sid =>
    let stepUp : Option (UIState × Bool) :=
      if ev.up then
        (forceScrollableRender (scrollUp st sid)).map (fun s => (s, true))
      else some (st, false)
    match stepUp with
    | none => none
    | some (st1, h1) =>
      let stepDown : Option (UIState × Bool) :=
        if ev.down then
          (forceScrollableRender (scrollDown st1 sid)).map (fun s => (s, true))
        else some (st1, h1)
      match stepDown with
      | none => none
      | some (st2, h2) =>
        let stepM : Option (UIState × Bool) :=
          if ev.m then scrollCommit st2 sid h2 else some (st2, h2)
        match stepM with
        | none => none
        | some (st3, h3) =>
          if ev.onoff then exitScrollable st3 else some (st3, h3)

/-- onPressEditable from screen.c, called only while an editable is active.
UP_CLICK and DOWN_CLICK are merely claimed (the actual mutation happens during
blink-tick sampling in renderEditable); ONOFF_CLICK clears the active-editable
state.  If anything was claimed, the previously active editable (captured
before the clear) is marked dirty, and if a scrollable is active the root
scrollable is marked dirty too.  The dirty store dereferences the captured
pointer, so a call with no active editable and a claimed event is a null
dereference, modelled as failure. -/
def onPressEditable (st : UIState) (ev : Events) : Option (UIState × Bool) :=
  let sid0 := st.curActiveEditable
  let handled0 := ev.up || ev.down
  let st1 := if ev.onoff then { st with curActiveEditable := none } else st
  let handled := if ev.onoff then true else handled0
  if handled then
    match sid0 with
    | none => none
    | some sid =>
      let st2 := updateField st1 sid (fun fl => { fl with dirty := true })
      let st3 :=
        match getActiveScrollable st2 with
        | some _ => updateField st2 (st2.stack.headD 0)
            (fun fl => { fl with dirty := true })
        | none => st2
      some (st3, true)
  else
    some (st1, false)

/-- The type of a screen's onPress handler (a ButtonEventHandler function
pointer from screen.h); it may mutate the UI state arbitrarily. -/
def Handler : Type := Events → UIState → Option (UIState × Bool)

/-- screenOnPress from screen.c: the active editable's handler runs only when
an editable is active; the scrollable handler runs only when nothing was
handled yet; the current screen's own handler runs only when still unhandled
and a screen with a registered handler exists (curScreen and curScreen's
onPress member collapse into one Option parameter here). -/
def screenOnPress (scrH : Option Handler) (ev : Events) (st : UIState) :
    Option (UIState × Bool) :=
  let layer1 : Option (UIState × Bool) :=
    if st.curActiveEditable.isSome then onPressEditable st ev else some (st, false)
  match layer1 with
  | none => none
  | some (st1, h1) =>
    let layer2 : Option (UIState × Bool) :=
      if h1 then some (st1, h1) else onPressScrollable st1 ev
    match layer2 with
    | none => none
    | some (st2, h2) =>
      if h2 then some (st2, h2)
      else
        match scrH with
        | some h => match h ev st2 with
                    | none => none
                    | some (st3, h3) => some (st3, h3)
        | none => some (st2, false)

/-- Modelled from the spec: evaluate a list of handler layers in strict
order, stopping at the first layer that claims the event; if no layer claims
it, return the final state with handled = false. -/
def tryLayers : List (UIState → Option (UIState × Bool)) → UIState →
    Option (UIState × Bool)
  | [], st => some (st, false)
  | l :: ls, st =>
    match l st with
    | none => none
    | some (st1, true) => some (st1, true)
    | some (st1, false) => tryLayers ls st1

/-- Modelled from the spec (section 4.5 Button Dispatch): the three layers of
the dispatch - active editable if any, active scrollable if any, the current
screen's handler if registered - evaluated in strict order, stopping at the
first handler that claims the event. -/
def dispatchSpec (scrH : Option Handler) (ev : Events) (st : UIState) :
    Option (UIState × Bool) :=
  tryLayers
    [ fun s => if s.curActiveEditable.isSome then onPressEditable s ev
               else some (s, false),
      fun s => if (getActiveScrollable s).isSome then onPressScrollable s ev
               else some (s, false),
      fun s => match scrH with
               | some h => h ev s
               | none => some (s, false) ] st

/-- fieldPrintf from screen.c, applied to the already-formatted string (the
varargs formatting itself is C library behaviour; vsnprintf into a buffer of
MAX_FIELD_LEN bytes keeps at most MAX_FIELD_LEN - 1 characters).  The field's
message buffer is overwritten and the dirty flag set only when the new string
differs from the stored one. -/
def fieldPrintf (f : Field) (formatted : String) : Field :=
  let buf := formatted.take (MAX_FIELD_LEN - 1)
  if buf ≠ f.msg then { f with msg := buf, dirty := true } else f

/-! ### The render loop (renderLayouts) -/

/-- A UG_FONT: the metrics renderLayouts reads. -/
structure UFont where
  char_width : Int
  char_height : Int
deriving DecidableEq, Repr

/-- The FieldLayout struct of screen.h, with the Field pointer as a heap
index.  The font, modifier, border and old_editable members are used by
screen.c but their declaring header revision is absent from the sources; they
are modelled from the spec (optional font override, modifier, border flags, a
cached previous numeric value for editable change detection). -/
structure RLayout where
  x : Int := 0
  y : Int := 0
  width : Int := 0
  height : Int := 0
  color : ColorOp := .ColorNormal
  fieldId : Nat
  font : Option UFont := none
  modifier : Modifier := .ModNone
  border : Nat := 0
  old_editable : Int := 0
deriving Repr

/-- The globals of screen.c the render loop reads and writes (besides the
Field heap): the blink phase flags and the force-labels pair. -/
structure RState where
  fields : Nat → Field
  blinkChanged : Bool
  blinkOn : Bool
  forceLabels : Bool
  oldForceLabels : Bool

/-- External inputs of one renderLayouts call: the screen dimensions from
lcd.h, the inter-character spacing of the global gui object, and the sampled
state of the m button (buttons_get_m_state). -/
structure RenderEnv where
  screenW : Int
  screenH : Int
  charHSpace : Int
  mpressed : Bool
deriving DecidableEq, Repr

/-- Set or clear the dirty flag of the field at heap index i. -/
def setDirty (st : RState) (i : Nat) (b : Bool) : RState :=
  { st with fields := fun j => if j = i then { st.fields j with dirty := b }
                               else st.fields j }

/-- needsRender from screen.c: redraw when the field is dirty, or blink is set
and the blink state just toggled, or the field is an editable (editables do
their own finer change detection). -/
def needsRender (st : RState) (l : RLayout) : Bool :=
  if (st.fields l.fieldId).dirty then true
  else if (st.fields l.fieldId).blink && st.blinkChanged then true
  else if (st.fields l.fieldId).variant = .FieldEditable then true
  else false

/-- Auto-layout, step 1 of renderLayouts: width 0 consumes the remaining
screen width. -/
def resolveW0 (env : RenderEnv) (l : RLayout) : RLayout :=
  if l.width = 0 then { l with width := env.screenW - l.x } else l

/-- Auto-layout, step 2: height 0 consumes the remaining screen height. -/
def resolveH0 (env : RenderEnv) (l : RLayout) : RLayout :=
  if l.height = 0 then { l with height := env.screenH - l.y } else l

/-- Auto-layout, step 3: height -1 takes the font's line height; a missing
font is an assert. -/
def resolveHFont (l : RLayout) : Option RLayout :=
  if l.height = -1 then
    match l.font with
    | none => none
    | some fnt => some { l with height := fnt.char_height }
  else some l

/-- Auto-layout, step 4: negative width counts characters, converted to
pixels with the font metrics; a missing font is an assert. -/
def resolveWChars (env : RenderEnv) (l : RLayout) : Option RLayout :=
  if l.width < 0 then
    match l.font with
    | none => none
    | some fnt =>
      some { l with width := -l.width * (fnt.char_width + env.charHSpace) }
  else some l

/-- Auto-layout, step 5: negative y stacks below the highest y drawn so far
in this pass. -/
def resolveY (maxy : Int) (l : RLayout) : RLayout :=
  if l.y < 0 then { l with y := maxy + -l.y - 1 } else l

/-- The auto-layout resolution block of renderLayouts, in source order:
width 0 takes the remaining screen width; height 0 the remaining screen
height; height -1 the font's line height (font required, else assert);
negative width counts characters and converts to pixels (font required);
negative y stacks below the highest y drawn so far. -/
def resolveGeom (env : RenderEnv) (maxy : Int) (l : RLayout) : Option RLayout :=
  match resolveHFont (resolveH0 env (resolveW0 env l)) with
  | none => none
  | some l2 =>
    match resolveWChars env l2 with
    | none => none
    | some l3 => some (resolveY maxy l3)

/-- A renderer from the dispatch table of screen.c, abstracted: it receives
the resolved layout, may mutate the field heap and globals (the concrete
renderers draw pixels - an external collaborator - mark child fields dirty,
and recurse), may hit an assert (none), and reports whether it drew
anything. -/
def RendererFn : Type := RLayout → RState → Option (RState × Bool)

/-- The accumulator of the first (drawing) pass of renderLayouts: the evolving
state, the running max-y for auto-stacking, the didDraw and
didChangeForceLabels flags, plus bookkeeping that records the resolved
layouts (the C loop resolves them in place in the caller's array) and, for
specification purposes, the position of every layout that was drawn. -/
structure PassAcc where
  state : RState
  maxy : Int
  didDraw : Bool
  didChange : Bool
  idx : Nat
  outLayouts : List RLayout
  drawn : List Nat

/-- The state updates at the top of the render loop body for one layout: mark
the field dirty if forceRender; if the field is an editable, recompute the
forceLabels global from the m-button state and the layout's modifier. -/
def stepState (env : RenderEnv) (forceRender : Bool) (acc : PassAcc)
    (l : RLayout) : RState :=
  if ((if forceRender then setDirty acc.state l.fieldId true
       else acc.state).fields l.fieldId).variant = .FieldEditable then
    { (if forceRender then setDirty acc.state l.fieldId true else acc.state)
        with forceLabels := env.mpressed && l.modifier = .ModNoLabel }
  else (if forceRender then setDirty acc.state l.fieldId true else acc.state)

/-- The didChangeForceLabels flag after one loop body. -/
def stepDidChange (env : RenderEnv) (forceRender : Bool) (acc : PassAcc)
    (l : RLayout) : Bool :=
  if ((stepState env forceRender acc l).fields l.fieldId).variant = .FieldEditable
  then true else acc.didChange

/-- One iteration of the first pass of renderLayouts: mark the field dirty if
forceRender, recompute forceLabels on editables, and if needsRender, resolve
the geometry, dispatch to the variant's renderer, and fold its didDraw bit and
the new max y (drawSelectionMarker and drawBorder only touch pixels). -/
def renderStep (R : RendererFn) (env : RenderEnv) (forceRender : Bool)
    (acc : PassAcc) (l : RLayout) : Option PassAcc :=
  let st := stepState env forceRender acc l
  let didChange := stepDidChange env forceRender acc l
  if needsRender st l then
    match resolveGeom env acc.maxy l with
    | none => none
    | some l1 =>
      match R l1 st with
      | none => none
      | some (st2, b) =>
        let maxy1 := if acc.maxy < l1.y + l1.height then l1.y + l1.height
                     else acc.maxy
        some { state := st2, maxy := maxy1, didDraw := acc.didDraw || b,
               didChange := didChange, idx := acc.idx + 1,
               outLayouts := acc.outLayouts ++ [l1],
               drawn := acc.drawn ++ [acc.idx] }
  else
    some { acc with state := st, didChange := didChange, idx := acc.idx + 1,
                    outLayouts := acc.outLayouts ++ [l] }

/-- The second pass of renderLayouts: clear the dirty bit of every field
referenced by the sequence (done separately because several layouts may share
one field). -/
def clearPass (st : RState) (ls : List RLayout) : RState :=
  ls.foldl (fun s l => setDirty s l.fieldId false) st

/-- The result of one renderLayouts call: the final state, the layout array
as mutated by the geometry resolution, the didDraw return value, and the
recorded positions of the drawn layouts. -/
structure RenderOut where
  state : RState
  layouts : List RLayout
  didDraw : Bool
  drawn : List Nat

/-- renderLayouts from screen.c: run the first (drawing) pass over the
sequence, then clear dirty bits in a second pass over the same sequence, then
latch oldForceLabels if any editable recomputed forceLabels.  The renderer
dispatch table is a parameter (its entries draw through external pixel
primitives). -/
def renderLayouts (R : RendererFn) (env : RenderEnv) (ls : List RLayout)
    (forceRender : Bool) (st : RState) : Option RenderOut :=
  match List.foldlM (renderStep R env forceRender)
      ⟨st, 0, false, false, 0, [], []⟩ ls with
  | none => none
  | some acc =>
    let st2 := clearPass acc.state acc.outLayouts
    let st3 := if acc.didChange then { st2 with oldForceLabels := st2.forceLabels }
               else st2
    some ⟨st3, acc.outLayouts, acc.didDraw, acc.drawn⟩

/-! ### Helper lemmas -/

theorem setEditableNumber_read (f : Field) (cells : Cells) (v : Int)
    (h : f.size = 1 ∨ f.size = 2 ∨ f.size = 4) :
    (setEditableNumber f cells v).map (fun c => c f.target) =
      some ((v % 2 ^ (8 * f.size)).toNat) := by
  rcases h with h | h | h <;> simp [setEditableNumber, h]

theorem changeEditable_uint_unfold (f : Field) (cells : Cells) (v0 : Int)
    (inc : Bool) (htyp : f.typ = .EditUInt)
    (hget : getEditableNumber f cells = some v0) :
    changeEditable f cells inc =
      (let step : Int := if f.inc_step = 0 then 1 else toSigned 32 f.inc_step
       let v : Int := v0 + step * (if inc then 1 else -1)
       let vu : Nat := (v % 2 ^ 32).toNat
       let v : Int :=
         if vu < f.min_value then toSigned 32 f.max_value
         else if f.max_value < vu then toSigned 32 f.min_value
         else v
       setEditableNumber f cells v) := by
  simp [changeEditable, hget, htyp]

/-- Claim C9: fieldPrintf writes the bounded formatted string into the text
field's message buffer; the dirty flag is set exactly when the new string
differs from the previously stored one (and is never cleared); the operation
is idempotent - a second call with the same resulting string is the identity,
and in particular leaves dirty false when dirty was cleared (by a render pass)
after the first call. -/
theorem fieldPrintf_idempotent (f : Field) (s : String) :
    (fieldPrintf f s).msg = s.take (MAX_FIELD_LEN - 1) ∧
    ((fieldPrintf f s).dirty = true ↔
      (s.take (MAX_FIELD_LEN - 1) ≠ f.msg ∨ f.dirty = true)) ∧
    fieldPrintf (fieldPrintf f s) s = fieldPrintf f s ∧
    fieldPrintf { fieldPrintf f s with dirty := false } s =
      { fieldPrintf f s with dirty := false } := by
  unfold fieldPrintf
  by_cases h : s.take (MAX_FIELD_LEN - 1) = f.msg <;>
    simp [h]

/-- Claim C10: reading an editable is width-asymmetric in signedness.  Size 1
reads the stored byte unsigned; size 2 reads through a signed 16-bit pointer,
so stored values of 32768 and above come back negative; size 4 reads signed
32-bit; setEditableNumber stores the unsigned truncation for every width; and
read-after-write of a 2-byte editable returns the written value v exactly when
v < 32768. -/
theorem editable_width_signedness (f1 f2 f4 : Field) (cells : Cells) (v : Nat)
    (h1 : f1.size = 1) (h2 : f2.size = 2) (h4 : f4.size = 4) :
    getEditableNumber f1 cells = some ((cells f1.target % 2 ^ 8 : Nat) : Int) ∧
    (2 ^ 15 ≤ cells f2.target % 2 ^ 16 →
      ∃ n : Int, getEditableNumber f2 cells = some n ∧ n < 0) ∧
    (2 ^ 31 ≤ cells f4.target % 2 ^ 32 →
      ∃ n : Int, getEditableNumber f4 cells = some n ∧ n < 0) ∧
    (setEditableNumber f1 cells v).map (fun c => c f1.target) =
      some (v % 2 ^ 8) ∧
    (setEditableNumber f2 cells v).map (fun c => c f2.target) =
      some (v % 2 ^ 16) ∧
    (setEditableNumber f4 cells v).map (fun c => c f4.target) =
      some (v % 2 ^ 32) ∧
    ((setEditableNumber f2 cells v).bind (fun c => getEditableNumber f2 c) =
        some (v : Int) ↔ v < 2 ^ 15) := by
  refine ⟨by simp [getEditableNumber, h1], ?_, ?_, ?_, ?_, ?_, ?_⟩
  · intro hhi
    refine ⟨toSigned 16 (cells f2.target % 2 ^ 16), by simp [getEditableNumber, h2], ?_⟩
    have := Nat.mod_lt (cells f2.target) (y := 2 ^ 16) (by norm_num)
    unfold toSigned
    split <;> omega
  · intro hhi
    refine ⟨toSigned 32 (cells f4.target % 2 ^ 32), by simp [getEditableNumber, h4], ?_⟩
    have := Nat.mod_lt (cells f4.target) (y := 2 ^ 32) (by norm_num)
    unfold toSigned
    split <;> omega
  · simp [setEditableNumber, h1]; omega
  · simp [setEditableNumber, h2]; omega
  · simp [setEditableNumber, h4]; omega
  · simp [setEditableNumber, h2, getEditableNumber, toSigned]
    have hv : ((v : Int) % 65536).toNat = v % 65536 := by omega
    rw [hv]
    have := Nat.mod_lt v (y := 65536) (by norm_num)
    split <;> omega

/-- Witness for editable_width_signedness at a concrete 2-byte editable whose
cell holds 40000 (which reads back negative). -/
theorem editable_width_signedness_witness :
    ∃ n : Int,
      getEditableNumber { size := 2, target := 0 }
          (fun j => if j = 0 then 40000 else 3000000000) = some n ∧ n < 0 := by
  have h := editable_width_signedness { size := 1, target := 0 }
    { size := 2, target := 0 } { size := 4, target := 1 }
    (fun j => if j = 0 then 40000 else 3000000000) 40000 rfl rfl rfl
  exact h.2.1 (by norm_num)

set_option maxRecDepth 8000 in
/-- Counterexample to claim C8 as stated: an Enum editable with 300 options
and stored index 0.  One changeEditable decrement computes the wrapped index
numOpts - 1 = 299, but setEditableNumber stores it through the byte-wide cell
(screen.h: *target is assumed uint8_t), so the stored index becomes
299 mod 256 = 43, not n - 1 = 299 as the claim requires. -/
theorem changeEditable_enum_trunc_cex :
    (changeEditable
        { variant := .FieldEditable, typ := .EditEnum, size := 1, target := 0,
          options := List.replicate 300 "x" }
        (fun _ => 0) false).map (fun c => c 0) = some 43 ∧
      (43 : Nat) ≠ 300 - 1 := by
  constructor
  · decide
  · decide

/-- Claim C8 (amended): for an active Enum editable with n options (the NULL
entry of the C options array is the end of the modelled list) where n ≤ 256,
changeEditable wraps the stored index modulo n: increment from n-1 stores 0,
decrement from 0 stores n-1, and interior indices move by exactly 1.  The
stored index lives in a byte-wide cell (screen.h: *target is assumed uint8_t),
so with more than 256 options the store truncates mod 256 and the wrapped
index is not preserved. -/
theorem changeEditable_enum_wrap (f : Field) (cells : Cells) (v : Nat)
    (htyp : f.typ = .EditEnum) (hsz : f.size = 1)
    (hn1 : 1 ≤ f.options.length) (hn256 : f.options.length ≤ 2 ^ 8)
    (hv : cells f.target % 2 ^ 8 = v) (hvn : v < f.options.length) :
    (changeEditable f cells true).map (fun c => c f.target) =
      some (if v = f.options.length - 1 then 0 else v + 1) ∧
    (changeEditable f cells false).map (fun c => c f.target) =
      some (if v = 0 then f.options.length - 1 else v - 1) := by
  have hget : getEditableNumber f cells = some (v : Int) := by
    simp only [getEditableNumber, hsz, Option.some.injEq]
    omega
  constructor
  · simp only [changeEditable, hget, htyp, countEnumOptions]
    rw [setEditableNumber_read f cells _ (Or.inl hsz), hsz]
    simp only [Option.some.injEq, if_true]
    split_ifs <;> omega
  · simp only [changeEditable, hget, htyp, countEnumOptions]
    rw [setEditableNumber_read f cells _ (Or.inl hsz), hsz]
    simp only [Option.some.injEq, Bool.false_eq_true, if_false]
    split_ifs <;> omega

/-- Witness for changeEditable_enum_wrap: the spec scenario - options Off,
Low, High with stored index 2 - incremented wraps to 0. -/
theorem changeEditable_enum_wrap_witness :
    (changeEditable
        { variant := .FieldEditable, typ := .EditEnum, size := 1, target := 0,
          options := ["Off", "Low", "High"] }
        (fun _ => 2) true).map (fun c => c 0) = some 0 := by
  have h := changeEditable_enum_wrap
    { variant := .FieldEditable, typ := .EditEnum, size := 1, target := 0,
      options := ["Off", "Low", "High"] }
    (fun _ => 2) 2 rfl rfl (by norm_num) (by norm_num) rfl (by norm_num)
  simpa using h.1

theorem updateField_self (st : UIState) (i : Nat) (g : Field → Field) :
    (updateField st i g).fields i = g (st.fields i) := by
  simp [updateField]

theorem updateField_other (st : UIState) (i j : Nat) (g : Field → Field)
    (h : j ≠ i) : (updateField st i g).fields j = st.fields j := by
  simp [updateField, h]

theorem updateField_stack (st : UIState) (i : Nat) (g : Field → Field) :
    (updateField st i g).stack = st.stack := by
  simp [updateField]

/-- Claim C5: enterScrollable at depth strictly below MAX_SCROLLABLE_DEPTH
pushes the Field (depth grows by one), sets the pushed Field's blink flag, and
marks the root (bottom-of-stack) scrollable dirty; at depth equal to
MAX_SCROLLABLE_DEPTH the fatal assertion fires (modelled by none) - the stack
is never silently truncated. -/
theorem enterScrollable_spec (stA stB : UIState) (f e : Nat)
    (hA : stA.stack.length < MAX_SCROLLABLE_DEPTH)
    (hB : stB.stack.length = MAX_SCROLLABLE_DEPTH) :
    (enterScrollable stA f).map (fun s => s.stack) = some (stA.stack ++ [f]) ∧
    (enterScrollable stA f).map (fun s => s.stack.length) =
      some (stA.stack.length + 1) ∧
    (enterScrollable stA f).map (fun s => (s.fields f).blink) = some true ∧
    (enterScrollable stA f).map (fun s => (s.fields (s.stack.headD 0)).dirty) =
      some true ∧
    enterScrollable stB e = none := by
  refine ⟨?_, ?_, ?_, ?_, ?_⟩
  · simp [enterScrollable, hA, updateField]
  · simp [enterScrollable, hA, updateField]
  · simp [enterScrollable, hA, updateField]
    split <;> simp
  · simp [enterScrollable, hA, updateField]
  · simp [enterScrollable, hB]

/-- Witness for enterScrollable_spec: a push on an empty stack succeeds and a
push on a full (depth 3) stack asserts. -/
theorem enterScrollable_spec_witness :
    (enterScrollable
        ⟨fun _ => ({} : Field), fun _ => 0, [], none, false⟩ 5).map
      (fun s => s.stack.length) = some 1 ∧
    enterScrollable ⟨fun _ => ({} : Field), fun _ => 0, [1, 2, 3], none, false⟩ 9 =
      none := by
  have h := enterScrollable_spec
    ⟨fun _ => ({} : Field), fun _ => 0, [], none, false⟩
    ⟨fun _ => ({} : Field), fun _ => 0, [1, 2, 3], none, false⟩ 5 9
    (by simp [MAX_SCROLLABLE_DEPTH]) (by simp [MAX_SCROLLABLE_DEPTH])
  exact ⟨h.2.1, h.2.2.2.2⟩

theorem exitScrollable_eq (st : UIState) (hne : st.stack ≠ []) :
    ∃ st1 h, exitScrollable st = some (st1, h) ∧
      st1.stack = st.stack.dropLast ∧ (h = true ↔ 2 ≤ st.stack.length) := by
  cases hstack : st.stack with
  | nil => exact absurd hstack hne
  | cons a rest =>
    cases rest with
    | nil =>
      refine ⟨{ st with stack := [] }, false, ?_, by simp [hstack], by simp [hstack]⟩
      simp [exitScrollable, hstack]
    | cons b r2 =>
      have hne2 : (a :: b :: r2).dropLast ≠ [] := by
        rw [List.dropLast_cons₂]
        exact List.cons_ne_nil _ _
      have hf := List.getLast?_eq_getLast_of_ne_nil hne2
      refine ⟨{ updateField { st with stack := (a :: b :: r2).dropLast }
          ((a :: b :: r2).dropLast.getLast hne2)
          (fun fl => { fl with dirty := true }) with
            forceScrollableRelayout := true }, true, ?_, ?_, ?_⟩
      · simp only [exitScrollable, hstack, hf]
      · simp [updateField_stack, hstack]
      · simp [hstack]

/-- Claim C6 (amended): when the active scrollable handles the exit action it
pops the navigation stack, and the press is reported handled exactly when a
parent scrollable remains (stack depth was at least 2 before the pop); a press
that empties the stack (depth exactly 1 before the pop) is propagated
unhandled so outer layers can react to leaving the whole menu. -/
theorem exit_pop_handled (st : UIState) (sid : Nat)
    (hact : getActiveScrollable st = some sid) :
    ∃ st1 h, onPressScrollable st { onoff := true } = some (st1, h) ∧
      st1.stack = st.stack.dropLast ∧ (h = true ↔ 2 ≤ st.stack.length) := by
  have hne : st.stack ≠ [] := by
    intro h
    rw [getActiveScrollable, h] at hact
    simp at hact
  simp only [onPressScrollable, hact]
  simpa using exitScrollable_eq st hne

/-- Counterexample to claim C6 as stated: at stack depth 1 (non-empty before
the pop) the exit press pops the stack to empty and onPressScrollable reports
it NOT handled, while the claim says a press with a non-empty stack before the
pop is reported handled. -/
theorem exit_depth_one_cex :
    (onPressScrollable ⟨fun _ => ({} : Field), fun _ => 0, [7], none, false⟩
        { onoff := true }).map (fun p => (p.1.stack.length, p.2)) =
      some (0, false) := by
  decide

/-- Witness for exit_pop_handled at stack depth 2: the pop leaves depth 1 and
the press is handled. -/
theorem exit_pop_handled_witness :
    ∃ st1 h,
      onPressScrollable ⟨fun _ => ({} : Field), fun _ => 0, [7, 8], none, false⟩
          { onoff := true } = some (st1, h) ∧
        st1.stack = [7] ∧ h = true := by
  obtain ⟨st1, h, he, hs, hh⟩ := exit_pop_handled
    ⟨fun _ => ({} : Field), fun _ => 0, [7, 8], none, false⟩ 8 rfl
  exact ⟨st1, h, he, by simpa using hs, hh.mpr (by simp)⟩

theorem scrollUp_stack (st : UIState) (sid : Nat) :
    (scrollUp st sid).stack = st.stack := by
  simp [scrollUp, updateField]

theorem scrollDown_stack (st : UIState) (sid : Nat) :
    (scrollDown st sid).stack = st.stack := by
  simp [scrollDown, updateField]

theorem markDirty_first_selected (st : UIState) (i j : Nat) :
    ((updateField st i (fun fl => { fl with dirty := true })).fields j).first =
      (st.fields j).first ∧
    ((updateField st i (fun fl => { fl with dirty := true })).fields j).selected =
      (st.fields j).selected := by
  simp only [updateField]
  split <;> simp

theorem forceScrollableRender_eq (st : UIState) (sid : Nat)
    (hact : getActiveScrollable st = some sid) :
    forceScrollableRender st =
      some { updateField st (st.stack.headD 0)
               (fun fl => { fl with dirty := true }) with
               forceScrollableRelayout := true } := by
  simp [forceScrollableRender, hact]

theorem onPressScrollable_up_eq (st : UIState) (sid : Nat)
    (hact : getActiveScrollable st = some sid) :
    onPressScrollable st { up := true } =
      (forceScrollableRender (scrollUp st sid)).map (fun s => (s, true)) := by
  cases hfr : forceScrollableRender (scrollUp st sid) <;>
    simp [onPressScrollable, hact, hfr]

theorem onPressScrollable_down_eq (st : UIState) (sid : Nat)
    (hact : getActiveScrollable st = some sid) :
    onPressScrollable st { down := true } =
      (forceScrollableRender (scrollDown st sid)).map (fun s => (s, true)) := by
  cases hfr : forceScrollableRender (scrollDown st sid) <;>
    simp [onPressScrollable, hact, hfr]

theorem scrollUp_fields (st : UIState) (sid : Nat) :
    (scrollUp st sid).fields sid =
      (let F := st.fields sid
       let F1 := if 1 ≤ F.selected then { F with selected := F.selected - 1 } else F
       if F1.selected < F1.first then { F1 with first := F1.selected } else F1) := by
  unfold scrollUp
  rw [updateField_self, updateField_self]

theorem scrollDown_fields (st : UIState) (sid : Nat) :
    (scrollDown st sid).fields sid =
      (let F := st.fields sid
       let n : Int := countEntries st sid
       let F1 := if (F.selected : Int) < n - 1 then
           { F with selected := (F.selected + 1) % 2 ^ 8 } else F
       if (F1.first : Int) + (MAX_SCROLLABLE_ROWS - 1 : Int) - 1 < (F1.selected : Int) then
         { F1 with first := (((F1.selected : Int) - (MAX_SCROLLABLE_ROWS - 1 : Int) + 1) % 2 ^ 8).toNat }
       else F1) := by
  unfold scrollDown
  rw [updateField_self, updateField_self]

/-- Claim C3 (amended): for an active scrollable in a valid state
(first ≤ selected ≤ entry_count - 1, the stored indices are bytes so
selected < 256, and - the amendment - the scrollable has at most 256 entries),
an up or down navigation press preserves the bounds: selected stays at most
entry_count - 1 (and is a Nat, hence never below 0) and first ≤ selected still
holds.  Without the entry-count bound the uint8_t selected wraps 255 -> 0 on a
down press and first ≤ selected breaks. -/
theorem scroll_nav_invariant (st : UIState) (sid : Nat) (ev : Events)
    (hact : getActiveScrollable st = some sid)
    (hev : ev = { up := true } ∨ ev = { down := true })
    (hcount : countEntries st sid ≤ 2 ^ 8)
    (hsel : (st.fields sid).selected ≤ countEntries st sid - 1)
    (hfs : (st.fields sid).first ≤ (st.fields sid).selected)
    (hsel8 : (st.fields sid).selected < 2 ^ 8) :
    ∃ st1, onPressScrollable st ev = some (st1, true) ∧
      (st1.fields sid).first ≤ (st1.fields sid).selected ∧
      (st1.fields sid).selected ≤ countEntries st sid - 1 := by
  rcases hev with hev | hev <;> subst hev
  · rw [onPressScrollable_up_eq st sid hact,
        forceScrollableRender_eq (scrollUp st sid) sid
          (by rw [getActiveScrollable, scrollUp_stack]; exact hact)]
    refine ⟨_, rfl, ?_⟩
    have hm := markDirty_first_selected (scrollUp st sid)
      ((scrollUp st sid).stack.headD 0) sid
    have hv := scrollUp_fields st sid
    constructor
    · show ((updateField (scrollUp st sid) ((scrollUp st sid).stack.headD 0)
          (fun fl => { fl with dirty := true })).fields sid).first ≤
        ((updateField (scrollUp st sid) ((scrollUp st sid).stack.headD 0)
          (fun fl => { fl with dirty := true })).fields sid).selected
      rw [hm.1, hm.2]
      simp only [hv]
      split_ifs <;> first | omega | (simp_all; omega) | simp_all
    · show ((updateField (scrollUp st sid) ((scrollUp st sid).stack.headD 0)
          (fun fl => { fl with dirty := true })).fields sid).selected ≤
        countEntries st sid - 1
      rw [hm.2]
      simp only [hv]
      split_ifs <;> first | omega | (simp_all; omega) | simp_all
  · rw [onPressScrollable_down_eq st sid hact,
        forceScrollableRender_eq (scrollDown st sid) sid
          (by rw [getActiveScrollable, scrollDown_stack]; exact hact)]
    refine ⟨_, rfl, ?_⟩
    have hm := markDirty_first_selected (scrollDown st sid)
      ((scrollDown st sid).stack.headD 0) sid
    have hv := scrollDown_fields st sid
    constructor
    · show ((updateField (scrollDown st sid) ((scrollDown st sid).stack.headD 0)
          (fun fl => { fl with dirty := true })).fields sid).first ≤
        ((updateField (scrollDown st sid) ((scrollDown st sid).stack.headD 0)
          (fun fl => { fl with dirty := true })).fields sid).selected
      rw [hm.1, hm.2]
      simp only [hv, MAX_SCROLLABLE_ROWS]
      split_ifs <;> first | omega | (simp_all; omega) | simp_all
    · show ((updateField (scrollDown st sid) ((scrollDown st sid).stack.headD 0)
          (fun fl => { fl with dirty := true })).fields sid).selected ≤
        countEntries st sid - 1
      rw [hm.2]
      simp only [hv, MAX_SCROLLABLE_ROWS]
      split_ifs <;> first | omega | (simp_all; omega) | simp_all

/-- A concrete screen state for witnesses: a 3-entry scrollable (entry ids 0,
1, 2 and the FieldEnd sentinel 3) at heap index 50, currently active, with
first 0 and selected 1. -/
def threeEntries : UIState :=
  ⟨fun i => if i = 50 then
      { variant := .FieldScrollable, entries := [0, 1, 2, 3],
        first := 0, selected := 1 }
    else if i < 3 then { variant := .FieldDrawText }
    else { variant := .FieldEnd },
   fun _ => 0, [50], none, false⟩

/-- Witness for scroll_nav_invariant: an up press on the 3-entry scrollable
keeps the invariant. -/
theorem scroll_nav_invariant_witness :
    ∃ st1, onPressScrollable threeEntries { up := true } = some (st1, true) ∧
      (st1.fields 50).first ≤ (st1.fields 50).selected ∧
      (st1.fields 50).selected ≤ countEntries threeEntries 50 - 1 := by
  exact scroll_nav_invariant threeEntries 50 { up := true } rfl (Or.inl rfl)
    (by decide) (by decide) (by decide) (by decide)

/-- A scrollable with 258 entries (ids 0..257, FieldEnd sentinel 258) at heap
index 300, active, with the byte-valued first and selected both at 255 - a
state satisfying 0 ≤ first ≤ selected ≤ entry_count - 1. -/
def bigScroll : UIState :=
  ⟨fun i => if i = 300 then
      { variant := .FieldScrollable, entries := List.range 259,
        first := 255, selected := 255 }
    else if i < 258 then { variant := .FieldDrawText }
    else { variant := .FieldEnd },
   fun _ => 0, [300], none, false⟩

set_option maxRecDepth 8000 in
/-- Counterexample to claim C3 as stated: on a 258-entry scrollable with
first = selected = 255 (a valid state: 255 ≤ 257 = entry_count - 1), a down
press wraps the uint8_t selected to (255+1) mod 256 = 0 while first stays 255,
so first ≤ selected no longer holds after the press. -/
theorem scroll_nav_uint8_cex :
    (onPressScrollable bigScroll { down := true }).map
        (fun p => ((p.1.fields 300).first, (p.1.fields 300).selected)) =
      some (255, 0) ∧ ¬ (255 : Nat) ≤ 0 := by
  constructor
  · decide
  · decide

/-- The spec scenario state: a scrollable with 6 entries (ids 0..5, sentinel
6) at heap index 100, active, first 0, selected 0. -/
def scenario6 : UIState :=
  ⟨fun i => if i = 100 then
      { variant := .FieldScrollable, entries := [0, 1, 2, 3, 4, 5, 6],
        first := 0, selected := 0 }
    else if i < 6 then { variant := .FieldDrawText }
    else { variant := .FieldEnd },
   fun _ => 0, [100], none, false⟩

/-- Claim C4 (amended): a down press on the active scrollable increments
selected clamped at entry_count - 1, and when selected would fall past the
last visible data row (first + MAX_SCROLLABLE_ROWS - 2) it sets first so that
selected becomes the last visible data row - provided the scrollable has at
most 256 entries (selected is a uint8_t and wraps otherwise).  In particular
the spec scenario holds: 6 entries, first=0, selected=0, three down presses
give selected=3, first=1. -/
theorem scroll_down_policy (st : UIState) (sid : Nat)
    (hact : getActiveScrollable st = some sid)
    (hcount : countEntries st sid ≤ 2 ^ 8)
    (hsel : (st.fields sid).selected ≤ countEntries st sid - 1)
    (hsel8 : (st.fields sid).selected < 2 ^ 8) :
    (∃ st1, onPressScrollable st { down := true } = some (st1, true) ∧
      (st1.fields sid).selected =
        min ((st.fields sid).selected + 1) (countEntries st sid - 1) ∧
      (st1.fields sid).first =
        (if (st.fields sid).first + (MAX_SCROLLABLE_ROWS - 2) <
            min ((st.fields sid).selected + 1) (countEntries st sid - 1) then
          min ((st.fields sid).selected + 1) (countEntries st sid - 1) -
            (MAX_SCROLLABLE_ROWS - 2)
        else (st.fields sid).first)) ∧
    (((onPressScrollable scenario6 { down := true }).bind
        (fun p => onPressScrollable p.1 { down := true })).bind
        (fun p => onPressScrollable p.1 { down := true })).map
      (fun p => ((p.1.fields 100).selected, (p.1.fields 100).first)) =
      some (3, 1) := by
  constructor
  · rw [onPressScrollable_down_eq st sid hact,
        forceScrollableRender_eq (scrollDown st sid) sid
          (by rw [getActiveScrollable, scrollDown_stack]; exact hact)]
    refine ⟨_, rfl, ?_, ?_⟩
    · have hm := markDirty_first_selected (scrollDown st sid)
        ((scrollDown st sid).stack.headD 0) sid
      show ((updateField (scrollDown st sid) ((scrollDown st sid).stack.headD 0)
          (fun fl => { fl with dirty := true })).fields sid).selected = _
      rw [hm.2]
      simp only [scrollDown_fields, MAX_SCROLLABLE_ROWS]
      split_ifs <;> first | omega | (simp_all; omega) | simp_all
    · have hm := markDirty_first_selected (scrollDown st sid)
        ((scrollDown st sid).stack.headD 0) sid
      show ((updateField (scrollDown st sid) ((scrollDown st sid).stack.headD 0)
          (fun fl => { fl with dirty := true })).fields sid).first = _
      rw [hm.1]
      simp only [scrollDown_fields, MAX_SCROLLABLE_ROWS]
      split_ifs <;> first | omega | (simp_all; omega) | simp_all
  · decide

/-- Witness for scroll_down_policy: the first down press of the spec scenario
moves selected from 0 to 1 with first staying 0. -/
theorem scroll_down_policy_witness :
    ∃ st1, onPressScrollable scenario6 { down := true } = some (st1, true) ∧
      (st1.fields 100).selected = 1 ∧ (st1.fields 100).first = 0 := by
  obtain ⟨⟨st1, he, hs, hf⟩, -⟩ := scroll_down_policy scenario6 100 rfl
    (by decide) (by decide) (by decide)
  exact ⟨st1, he, by simpa using hs, by simpa using hf⟩

/-- A scrollable with 400 entries (ids 0..399, sentinel 400) at heap index
1000, active, first 200, selected 255. -/
def bigScroll2 : UIState :=
  ⟨fun i => if i = 1000 then
      { variant := .FieldScrollable, entries := List.range 401,
        first := 200, selected := 255 }
    else if i < 400 then { variant := .FieldDrawText }
    else { variant := .FieldEnd },
   fun _ => 0, [1000], none, false⟩

set_option maxRecDepth 8000 in
/-- Counterexample to claim C4 as stated: on a 400-entry scrollable at
selected 255 (≤ entry_count - 1 = 399), a down press stores
(255+1) mod 256 = 0 into the uint8_t selected instead of the claimed clamped
increment min(255+1, 399) = 256. -/
theorem scroll_down_uint8_cex :
    (onPressScrollable bigScroll2 { down := true }).map
        (fun p => (p.1.fields 1000).selected) = some 0 ∧
      (0 : Nat) ≠ min (255 + 1) (400 - 1) := by
  constructor
  · decide
  · decide

theorem onPressScrollable_no_active (st : UIState) (ev : Events)
    (h : getActiveScrollable st = none) :
    onPressScrollable st ev = some (st, false) := by
  simp [onPressScrollable, h]

theorem layer3_eq (scrH : Option Handler) (ev : Events) (s2 : UIState) :
    (match scrH with
     | some h => match h ev s2 with
                 | none => none
                 | some (st3, h3) => some (st3, h3)
     | none => some (s2, false)) =
    tryLayers [fun s => match scrH with
                        | some h => h ev s
                        | none => some (s, false)] s2 := by
  cases scrH with
  | none => simp [tryLayers]
  | some h =>
    cases hh : h ev s2 with
    | none => simp [tryLayers, hh]
    | some p =>
      obtain ⟨st3, h3⟩ := p
      cases h3 <;> simp [tryLayers, hh]

theorem layer2_eq (scrH : Option Handler) (ev : Events) (s1 : UIState) :
    (match onPressScrollable s1 ev with
     | none => none
     | some (st2, h2) =>
       if h2 then some (st2, h2)
       else match scrH with
            | some h => match h ev st2 with
                        | none => none
                        | some (st3, h3) => some (st3, h3)
            | none => some (st2, false)) =
    tryLayers [fun s => if (getActiveScrollable s).isSome then
                          onPressScrollable s ev
                        else some (s, false),
               fun s => match scrH with
                        | some h => h ev s
                        | none => some (s, false)] s1 := by
  by_cases hs : (getActiveScrollable s1).isSome = true
  · cases hp : onPressScrollable s1 ev with
    | none => simp [tryLayers, hs, hp]
    | some p =>
      obtain ⟨st2, h2⟩ := p
      cases h2
      · simp only [tryLayers, hs, if_true, hp, Bool.false_eq_true, if_false]
        exact layer3_eq scrH ev st2
      · simp [tryLayers, hs, hp]
  · have hnone : getActiveScrollable s1 = none := by
      rw [← Option.not_isSome_iff_eq_none]
      exact hs
    rw [onPressScrollable_no_active s1 ev hnone]
    simp only [tryLayers, hs, Bool.false_eq_true, if_false]
    exact layer3_eq scrH ev s1

/-- Claim C7: screenOnPress equals the spec dispatch - the three layers
(active editable's handler only when an editable is active, then the active
scrollable's handler, then the screen's registered onPress handler) evaluated
in strict order, stopping at the first layer that claims the event, false
exactly when no layer claimed it. -/
theorem screenOnPress_dispatch_order (scrH : Option Handler) (ev : Events)
    (st : UIState) :
    screenOnPress scrH ev st = dispatchSpec scrH ev st := by
  by_cases h1 : st.curActiveEditable.isSome = true
  · simp only [screenOnPress, dispatchSpec, tryLayers, h1, if_true]
    cases he : onPressEditable st ev with
    | none => rfl
    | some p =>
      obtain ⟨st1, b⟩ := p
      cases b
      · simp only [Bool.false_eq_true, if_false]
        exact layer2_eq scrH ev st1
      · rfl
  · simp only [screenOnPress, dispatchSpec, tryLayers, h1, Bool.false_eq_true,
      if_false]
    exact layer2_eq scrH ev st

/-- A renderer preserves true dirty flags (no concrete renderer of screen.c
ever clears a dirty bit; only the second pass of renderLayouts does). -/
def DirtyMono (R : RendererFn) : Prop :=
  ∀ lr s1 s2 b, R lr s1 = some (s2, b) →
    ∀ g, (s1.fields g).dirty = true → (s2.fields g).dirty = true

theorem setDirty_dirty (s : RState) (i fid : Nat) (b : Bool) :
    ((setDirty s i b).fields fid).dirty =
      if fid = i then b else (s.fields fid).dirty := by
  simp only [setDirty]
  split <;> simp

theorem resolveGeom_fieldId (env : RenderEnv) (maxy : Int) (l l1 : RLayout)
    (h : resolveGeom env maxy l = some l1) : l1.fieldId = l.fieldId := by
  have hW0 : ∀ x, (resolveW0 env x).fieldId = x.fieldId := by
    intro x; unfold resolveW0; split <;> rfl
  have hH0 : ∀ x, (resolveH0 env x).fieldId = x.fieldId := by
    intro x; unfold resolveH0; split <;> rfl
  have hHF : ∀ x y, resolveHFont x = some y → y.fieldId = x.fieldId := by
    intro x y hx
    unfold resolveHFont at hx
    split at hx
    · split at hx
      · exact Option.noConfusion hx
      · injection hx with h2; subst h2; rfl
    · injection hx with h2; subst h2; rfl
  have hWC : ∀ x y, resolveWChars env x = some y → y.fieldId = x.fieldId := by
    intro x y hx
    unfold resolveWChars at hx
    split at hx
    · split at hx
      · exact Option.noConfusion hx
      · injection hx with h2; subst h2; rfl
    · injection hx with h2; subst h2; rfl
  have hY : ∀ x, (resolveY maxy x).fieldId = x.fieldId := by
    intro x; unfold resolveY; split <;> rfl
  unfold resolveGeom at h
  split at h
  · exact Option.noConfusion h
  case h_2 l2 hl2 =>
    split at h
    · exact Option.noConfusion h
    case h_2 l3 hl3 =>
      injection h with h2
      subst h2
      rw [hY, hWC _ _ hl3, hHF _ _ hl2, hH0, hW0]

theorem stepState_fields (env : RenderEnv) (force : Bool) (acc : PassAcc)
    (l : RLayout) :
    (stepState env force acc l).fields =
      (if force then setDirty acc.state l.fieldId true else acc.state).fields := by
  unfold stepState
  split <;> split <;> rfl

theorem stepState_dirty (env : RenderEnv) (force : Bool) (acc : PassAcc)
    (l : RLayout) (fid : Nat) (hd : (acc.state.fields fid).dirty = true) :
    ((stepState env force acc l).fields fid).dirty = true := by
  rw [stepState_fields]
  split
  · rw [setDirty_dirty]; split <;> simp [hd]
  · exact hd

theorem needsRender_of_dirty (st : RState) (l : RLayout)
    (hd : (st.fields l.fieldId).dirty = true) : needsRender st l = true := by
  simp [needsRender, hd]

theorem renderStep_props (R : RendererFn) (env : RenderEnv) (force : Bool)
    (acc acc1 : PassAcc) (l : RLayout)
    (hstep : renderStep R env force acc l = some acc1) :
    acc1.idx = acc.idx + 1 ∧
    acc1.outLayouts.map (fun x => x.fieldId) =
      acc.outLayouts.map (fun x => x.fieldId) ++ [l.fieldId] ∧
    (∀ x, x ∈ acc.drawn → x ∈ acc1.drawn) ∧
    (∀ fid, (acc.state.fields fid).dirty = true → DirtyMono R →
      (acc1.state.fields fid).dirty = true ∧
      (l.fieldId = fid → acc.idx ∈ acc1.drawn)) := by
  simp only [renderStep] at hstep
  by_cases hneed : needsRender (stepState env force acc l) l = true
  · rw [if_pos hneed] at hstep
    cases hgeom : resolveGeom env acc.maxy l with
    | none =>
      simp only [hgeom] at hstep
      exact Option.noConfusion hstep
    | some l1 =>
      simp only [hgeom] at hstep
      cases hR : R l1 (stepState env force acc l) with
      | none =>
        simp only [hR] at hstep
        exact Option.noConfusion hstep
      | some p =>
        obtain ⟨st2, b⟩ := p
        simp only [hR] at hstep
        injection hstep with h2
        subst h2
        refine ⟨rfl, ?_, ?_, ?_⟩
        · simp [resolveGeom_fieldId env acc.maxy l l1 hgeom]
        · intro x hx
          simp only [List.mem_append]
          exact Or.inl hx
        · intro fid hd hmono
          refine ⟨hmono _ _ _ _ hR fid (stepState_dirty env force acc l fid hd), ?_⟩
          intro _
          simp
  · rw [if_neg hneed] at hstep
    injection hstep with h2
    subst h2
    refine ⟨rfl, by simp, by simp, ?_⟩
    intro fid hd hmono
    refine ⟨stepState_dirty env force acc l fid hd, ?_⟩
    intro hfid
    exfalso
    exact hneed (needsRender_of_dirty _ l
      (by rw [hfid]; exact stepState_dirty env force acc l fid hd))

theorem foldPass_props (R : RendererFn) (env : RenderEnv) (force : Bool) :
    ∀ (ls : List RLayout) (acc acc' : PassAcc),
      List.foldlM (renderStep R env force) acc ls = some acc' →
      acc'.outLayouts.map (fun x => x.fieldId) =
        acc.outLayouts.map (fun x => x.fieldId) ++ ls.map (fun x => x.fieldId) ∧
      (∀ x, x ∈ acc.drawn → x ∈ acc'.drawn) ∧
      (∀ fid, (acc.state.fields fid).dirty = true → DirtyMono R →
        (acc'.state.fields fid).dirty = true ∧
        ∀ i, (hi : i < ls.length) → (ls.get ⟨i, hi⟩).fieldId = fid →
          acc.idx + i ∈ acc'.drawn)
  | [], acc, acc', h => by
    simp only [List.foldlM_nil, Option.pure_def, Option.some.injEq] at h
    subst h
    refine ⟨by simp, fun x hx => hx, fun fid hd _ => ⟨hd, ?_⟩⟩
    intro i hi
    exact absurd hi (by simp)
  | l :: ls, acc, acc', h => by
    rw [List.foldlM_cons] at h
    cases hstep : renderStep R env force acc l with
    | none =>
      rw [hstep] at h
      exact Option.noConfusion h
    | some acc1 =>
      rw [hstep] at h
      have h2 : List.foldlM (renderStep R env force) acc1 ls = some acc' := h
      obtain ⟨hidx, hout, hdrawn, hdirty⟩ :=
        renderStep_props R env force acc acc1 l hstep
      obtain ⟨ihout, ihdrawn, ihdirty⟩ := foldPass_props R env force ls acc1 acc' h2
      refine ⟨?_, ?_, ?_⟩
      · rw [ihout, hout]
        simp
      · intro x hx
        exact ihdrawn x (hdrawn x hx)
      · intro fid hd hmono
        obtain ⟨hd1, hhit⟩ := hdirty fid hd hmono
        obtain ⟨hd', hpos⟩ := ihdirty fid hd1 hmono
        refine ⟨hd', ?_⟩
        intro i hi hfid
        cases i with
        | zero =>
          have hmem : acc.idx ∈ acc1.drawn := hhit (by simpa using hfid)
          simpa using ihdrawn _ hmem
        | succ j =>
          have hj : j < ls.length := by simpa using hi
          have hmem := hpos j hj (by simpa using hfid)
          rw [hidx] at hmem
          have heq : acc.idx + 1 + j = acc.idx + (j + 1) := by omega
          rw [heq] at hmem
          exact hmem

theorem clearPass_dirty (ls : List RLayout) (st : RState) (fid : Nat) :
    ((clearPass st ls).fields fid).dirty =
      if fid ∈ ls.map (fun x => x.fieldId) then false
      else (st.fields fid).dirty := by
  induction ls generalizing st with
  | nil => simp [clearPass]
  | cons l ls ih =>
    rw [show clearPass st (l :: ls) =
          clearPass (setDirty st l.fieldId false) ls from rfl, ih]
    by_cases h1 : fid ∈ ls.map (fun x => x.fieldId) <;>
      by_cases h2 : fid = l.fieldId <;>
      simp [h1, h2, setDirty_dirty]

/-- Claim C1: renderLayouts clears the dirty flag of every Field referenced
by a layout of the sequence in a second pass run after the whole drawing pass,
so (first conjunct) after the call every referenced Field has dirty = false -
for any renderer behaviour - and (second conjunct) a Field observed dirty at
entry is still seen as dirty by every layout that references it during the
drawing pass: every such layout position is drawn, provided the renderers
never clear dirty flags themselves (DirtyMono; the concrete renderers of
screen.c only ever set them). -/
theorem renderLayouts_dirty_cleared (R : RendererFn) (env : RenderEnv)
    (ls : List RLayout) (force : Bool) (st : RState) (out : RenderOut)
    (hrun : renderLayouts R env ls force st = some out) :
    (∀ l ∈ ls, ((out.state).fields l.fieldId).dirty = false) ∧
    (∀ fid, (st.fields fid).dirty = true → DirtyMono R →
      ∀ i, (hi : i < ls.length) → (ls.get ⟨i, hi⟩).fieldId = fid →
        i ∈ out.drawn) := by
  unfold renderLayouts at hrun
  cases hfold : List.foldlM (renderStep R env force)
      ⟨st, 0, false, false, 0, [], []⟩ ls with
  | none =>
    rw [hfold] at hrun
    exact Option.noConfusion hrun
  | some acc =>
    simp only [hfold] at hrun
    injection hrun with hrun2
    subst hrun2
    obtain ⟨hout, hdrawn, hdirty⟩ := foldPass_props R env force ls
      ⟨st, 0, false, false, 0, [], []⟩ acc hfold
    constructor
    · intro l hl
      have hmem : l.fieldId ∈ acc.outLayouts.map (fun x => x.fieldId) := by
        rw [hout]
        simpa using List.mem_map_of_mem (fun x => x.fieldId) hl
      have hclear := clearPass_dirty acc.outLayouts acc.state l.fieldId
      rw [if_pos hmem] at hclear
      by_cases hc : acc.didChange = true <;>
        simp only [hc, if_true, Bool.false_eq_true, if_false] <;>
        exact hclear
    · intro fid hd hmono i hi hfid
      have hpos := (hdirty fid hd hmono).2 i hi hfid
      simpa using hpos

/-- Witness for renderLayouts_dirty_cleared: one layout over a dirty field,
rendered by a trivial renderer that draws and leaves the state alone - after
the pass the field is clean and position 0 was drawn. -/
theorem renderLayouts_dirty_cleared_witness :
    ∃ out, renderLayouts (fun _ s => some (s, true)) ⟨64, 128, 0, false⟩
        [{ fieldId := 0 }] false
        ⟨fun _ => { dirty := true }, false, false, false, false⟩ = some out ∧
      ((out.state).fields 0).dirty = false ∧ 0 ∈ out.drawn := by
  have h0 : (renderLayouts (fun _ s => some (s, true)) ⟨64, 128, 0, false⟩
      [{ fieldId := 0 }] false
      ⟨fun _ => { dirty := true }, false, false, false, false⟩).isSome = true := rfl
  obtain ⟨out, hrun⟩ := Option.isSome_iff_exists.mp h0
  have hmono : DirtyMono (fun _ s => some (s, true)) := by
    intro lr s1 s2 b hR g hg
    injection hR with h
    cases h
    exact hg
  obtain ⟨h1, h2⟩ := renderLayouts_dirty_cleared (fun _ s => some (s, true))
    ⟨64, 128, 0, false⟩ [{ fieldId := 0 }] false
    ⟨fun _ => { dirty := true }, false, false, false, false⟩ out hrun
  exact ⟨out, hrun, h1 { fieldId := 0 } (List.mem_singleton.mpr rfl),
    h2 0 rfl hmono 0 (by simp) rfl⟩

end SW102
